import Mathlib

set_option maxRecDepth 10000

namespace SST

/-- Environment-variable mappings (TypeScript Record of string to string) are
modelled as association lists; lookup returns the value of the first entry
with the given key. -/
abbrev Env := List (String × String)

/-- Lookup of a key in an environment mapping. -/
def envLookup (e : Env) (k : String) : Option String :=
  List.lookup k e

/-- Whether an environment mapping has an entry for the given key. -/
def envContainsKey (e : Env) (k : String) : Bool :=
  e.any (fun p => k == p.1)

/-- JavaScript object spread of two records, second record wins on shared
keys: the entries of the first record whose key does not occur in the second,
followed by the second record.  Key insertion order of the real spread is
abstracted; lookup agrees with it on every key. -/
def objSpread (a b : Env) : Env :=
  a.filter (fun p => !envContainsKey b p.1) ++ b

/-- CDK lambda.Function.addEnvironment: sets one key, overwriting any
existing entry for it. -/
def addEnv (e : Env) (k v : String) : Env :=
  objSpread e [(k, v)]

/-- JavaScript s-or-else-d on an optional string where the empty string is
falsy (used only where the TypeScript type of the field is the full string
type, so the empty string is a possible value). -/
def jsOrStr (s : Option String) (d : String) : String :=
  match s with
  | some s => if s = "" then d else s
  | none => d

/-- Boolean prefix test on strings (String.startsWith), via character lists. -/
def strStartsWith (s p : String) : Bool :=
  p.data.isPrefixOf s.data

/-- Node path.join of two segments, posix flavour.  Dot and empty left
segments collapse; deeper segment normalization of path.join is not needed by
any code path modelled here. -/
def pathJoin (a b : String) : String :=
  if a = "" then b
  else if b = "" then a
  else if a = "." then b
  else a ++ "/" ++ b

/-- Node path.isAbsolute, posix flavour: the path starts with a slash. -/
def isAbsolutePath (p : String) : Bool :=
  strStartsWith p "/"

/-- A value of a TypeScript number-or-string union (duration and size props
accept a plain number or an expression string such as "10 seconds"). -/
inductive NumOrStr where
  | num (n : Int)
  | str (s : String)
deriving DecidableEq, Repr

/-- cdk.Duration: either a concrete seconds count, or the result of the
external toCdkDuration parser applied to a duration expression (kept
opaque; the parser lives outside this file). -/
inductive DurationVal where
  | seconds (n : Int)
  | fromExpr (s : String)
deriving DecidableEq, Repr

/-- cdk.Size: either a concrete mebibyte count, or the result of the external
toCdkSize parser applied to a size expression (kept opaque). -/
inductive SizeVal where
  | mebibytes (n : Int)
  | fromExpr (s : String)
deriving DecidableEq, Repr

/-- A memory size in MB as returned by normalizeMemorySize: a plain number,
or the mebibyte count of an externally parsed size expression (opaque). -/
inductive MemVal where
  | mb (n : Int)
  | fromExpr (s : String)
deriving DecidableEq, Repr

/-- One permission grant entry (an action or action prefix plus resources);
its internal shape is irrelevant to the merge algorithm, so entries are kept
opaque as strings. -/
abbrev Permission := String

/-- The Permissions union: the wildcard value (the string star) or an ordered
list of permission entries. -/
inductive Permissions where
  | star
  | list (entries : List Permission)
deriving DecidableEq, Repr

/-- FunctionBundleCopyFilesProps: a source-relative from path and an optional
to destination. -/
structure FunctionBundleCopyFilesProps where
  «from» : String
  «to» : Option String := none
deriving DecidableEq, Repr

/-- Nodejs bundle options.  Only the fields read by Function.ts are modelled;
the remaining esbuild options are pass-through configuration for the external
bundler and never inspected here. -/
structure FunctionBundleNodejsProps where
  copyFiles : Option (List FunctionBundleCopyFilesProps) := none
  minify : Option Bool := none
  format : Option String := none
deriving DecidableEq, Repr

/-- Python bundle options. -/
structure FunctionBundlePythonProps where
  copyFiles : Option (List FunctionBundleCopyFilesProps) := none
  installCommands : Option (List String) := none
deriving DecidableEq, Repr

/-- Java bundle options. -/
structure FunctionBundleJavaProps where
  copyFiles : Option (List FunctionBundleCopyFilesProps) := none
  buildTask : Option String := none
  buildOutputDir : Option String := none
  experimentalUseProvidedRuntime : Option String := none
deriving DecidableEq, Repr

/-- FunctionBundleProp: a boolean or one of the per-family option shapes. -/
inductive FunctionBundleProp where
  | bool (b : Bool)
  | nodejs (p : FunctionBundleNodejsProps)
  | python (p : FunctionBundlePythonProps)
  | java (p : FunctionBundleJavaProps)
deriving DecidableEq, Repr

/-- The copyFiles field of a bundle prop, when the bundle is one of the
object shapes (booleans carry no copyFiles). -/
def bundleCopyFiles : Option FunctionBundleProp → Option (List FunctionBundleCopyFilesProps)
  | some (FunctionBundleProp.nodejs p) => p.copyFiles
  | some (FunctionBundleProp.python p) => p.copyFiles
  | some (FunctionBundleProp.java p) => p.copyFiles
  | _ => none

/-- An SST construct as seen through the binding contract of section 6 of the
spec: it exposes an environment mapping and a permission mapping (action to
resource list).  Everything else about bound constructs is external. -/
structure SSTConstruct where
  env : Env := []
  permissions : List (String × List String) := []
deriving DecidableEq, Repr

/-- A CDK stack identity: ref models object identity (reference equality of
the stack object), nodeId is the construct node id used in SSM parameter
names. -/
structure Stack where
  ref : Nat
  nodeId : String
deriving DecidableEq, Repr

/-- A layer ARN value: a concrete string, or an unresolved CDK token (the
value only becomes known after the owning stack synthesizes). -/
inductive Arn where
  | concrete (s : String)
  | token (n : Nat)
deriving DecidableEq, Repr

/-- cdk.Token.isUnresolved on a layer ARN. -/
def Arn.isUnresolved : Arn → Bool
  | Arn.concrete _ => false
  | Arn.token _ => true

/-- A lambda.ILayerVersion resource handle: its owning stack, its construct
node id and unique node address, and its (possibly unresolved) ARN. -/
structure LayerRef where
  stack : Stack
  nodeId : String
  nodeAddr : String
  arn : Arn
deriving DecidableEq, Repr

/-- An entry of the layers prop: a bare ARN string or a layer resource. -/
inductive LayerInput where
  | arnString (s : String)
  | layerRef (l : LayerRef)
deriving DecidableEq, Repr

/-- The url prop: a boolean or a FunctionUrlProps object.  The cors config is
pass-through to the external CORS builder and not inspected here. -/
inductive UrlProp where
  | bool (b : Bool)
  | props (authorizer : Option String)
deriving DecidableEq, Repr

/-- FunctionProps: the partially specified definition of one function.
Optional TypeScript fields are Option; a key explicitly set to undefined is
identified with an absent key.  functionName is modelled in its string form
(the callback form is never consulted by the merge or validation logic). -/
structure FunctionProps where
  architecture : Option String := none
  functionName : Option String := none
  handler : Option String := none
  srcPath : Option String := none
  runtime : Option String := none
  diskSize : Option NumOrStr := none
  memorySize : Option NumOrStr := none
  timeout : Option NumOrStr := none
  tracing : Option String := none
  enableLiveDev : Option Bool := none
  environment : Option Env := none
  bundle : Option FunctionBundleProp := none
  bind : Option (List SSTConstruct) := none
  config : Option (List SSTConstruct) := none
  permissions : Option Permissions := none
  url : Option UrlProp := none
  layers : Option (List LayerInput) := none
  logRetention : Option String := none
deriving DecidableEq, Repr

/-- Merge of an optional list field in mergeProps: concatenate base entries
then override entries; if the concatenation is empty the field is omitted
from the merged-field object, so the final object spread falls back to the
override value, else the base value. -/
def mergeOptList {α : Type} (a b : Option (List α)) : Option (List α) :=
  let u := a.getD [] ++ b.getD []
  if u.isEmpty then b <|> a else some u

/-- Merge of the environment field in mergeProps: object spread of the two
mappings (override wins on shared keys); if the union has no keys the field
is omitted, so the final spread falls back to the override value, else the
base value. -/
def mergeOptEnv (a b : Option Env) : Option Env :=
  let u := objSpread (a.getD []) (b.getD [])
  if u.isEmpty then b <|> a else some u

/-- The entries of an optional permission set that is not the wildcard
(undefined counts as the empty list, as in permissions-or-empty-array). -/
def permEntries : Option Permissions → List Permission
  | some (Permissions.list l) => l
  | _ => []

/-- Merge of the permissions field in mergeProps: if the base is the wildcard
keep it; else if the override is the wildcard keep that; else concatenate the
two entry lists (base first), omitting the field when the concatenation is
empty so the final spread falls back to override then base. -/
def mergePermissionsField (a b : Option Permissions) : Option Permissions :=
  if a = some Permissions.star then some Permissions.star
  else if b = some Permissions.star then some Permissions.star
  else
    let l := permEntries a ++ permEntries b
    if l.isEmpty then b <|> a else some (Permissions.list l)

namespace Function

/-- Function.mergeProps(baseProps, props): environment / layers / config /
bind / permissions get their dedicated merged values; every other field comes
from the final object spread of baseProps then props, so the override value
wins whenever it is present. -/
def mergeProps (baseProps props : FunctionProps) : FunctionProps where
  architecture := props.architecture <|> baseProps.architecture
  functionName := props.functionName <|> baseProps.functionName
  handler := props.handler <|> baseProps.handler
  srcPath := props.srcPath <|> baseProps.srcPath
  runtime := props.runtime <|> baseProps.runtime
  diskSize := props.diskSize <|> baseProps.diskSize
  memorySize := props.memorySize <|> baseProps.memorySize
  timeout := props.timeout <|> baseProps.timeout
  tracing := props.tracing <|> baseProps.tracing
  enableLiveDev := props.enableLiveDev <|> baseProps.enableLiveDev
  environment := mergeOptEnv baseProps.environment props.environment
  bundle := props.bundle <|> baseProps.bundle
  bind := mergeOptList baseProps.bind props.bind
  config := mergeOptList baseProps.config props.config
  permissions := mergePermissionsField baseProps.permissions props.permissions
  url := props.url <|> baseProps.url
  layers := mergeOptList baseProps.layers props.layers
  logRetention := props.logRetention <|> baseProps.logRetention

end Function

/-- The keys of the supportedRuntimes record (its values are external
lambda.Runtime objects; only key membership is consulted by Function.ts). -/
def supportedRuntimes : List String :=
  ["nodejs", "nodejs4.3", "nodejs6.10", "nodejs8.10", "nodejs10.x",
   "nodejs12.x", "nodejs14.x", "nodejs16.x",
   "python2.7", "python3.6", "python3.7", "python3.8", "python3.9",
   "dotnetcore1.0", "dotnetcore2.0", "dotnetcore2.1", "dotnetcore3.1",
   "dotnet6", "java8", "java11", "go1.x"]

/-- The validation and normalization errors of the error taxonomy; the source
throws generic Error values, distinguished here by their raise site. -/
inductive FnError where
  | missingHandler
  | unsupportedRuntime
  | invalidBundleConfig
  | missingCopySource (fromPath : String)
  | invalidCopyDestination (toPath : String)
deriving DecidableEq, Repr

namespace Function

/-- Function.normalizeMemorySize: a string is handed to the external size
parser; a number n yields n-or-1024 (0 is falsy, as is an absent value). -/
def normalizeMemorySize : Option NumOrStr → MemVal
  | some (NumOrStr.str s) => MemVal.fromExpr s
  | some (NumOrStr.num n) => MemVal.mb (if n = 0 then 1024 else n)
  | none => MemVal.mb 1024

/-- Function.normalizeDiskSize: a string is handed to the external size
parser; a number n yields Size.mebibytes of n-or-512. -/
def normalizeDiskSize : Option NumOrStr → SizeVal
  | some (NumOrStr.str s) => SizeVal.fromExpr s
  | some (NumOrStr.num n) => SizeVal.mebibytes (if n = 0 then 512 else n)
  | none => SizeVal.mebibytes 512

/-- Function.normalizeTimeout: a string is handed to the external duration
parser; a number n yields Duration.seconds of n-or-10. -/
def normalizeTimeout : Option NumOrStr → DurationVal
  | some (NumOrStr.str s) => DurationVal.fromExpr s
  | some (NumOrStr.num n) => DurationVal.seconds (if n = 0 then 10 else n)
  | none => DurationVal.seconds 10

/-- Function.normalizeRuntime: default the identifier to nodejs14.x, then
fail unless it is a key of supportedRuntimes.  The runtime type is a union of
non-empty literals, so the or-else default only fires on an absent value. -/
def normalizeRuntime (runtime : Option String) : Except FnError String :=
  let r := runtime.getD "nodejs14.x"
  if supportedRuntimes.contains r then Except.ok r
  else Except.error FnError.unsupportedRuntime

/-- Function.normalizeSrcPath: strip every trailing slash. -/
def normalizeSrcPath (srcPath : String) : String :=
  String.mk (srcPath.data.reverse.dropWhile (fun c => c == '/')).reverse

/-- One pass of the copyFiles loop.  The filesystem is modelled as the list
of existing file paths.  Per entry, in source order: a missing from file
throws MissingCopySource; then an absolute destination throws
InvalidCopyDestination; otherwise the pair of resolved paths is copied.  The
result is the list of copies performed before any throw, plus the error. -/
def copyFilesGo (entries : List FunctionBundleCopyFilesProps)
    (srcPath buildPath : String) (fsys : List String) :
    List (String × String) × Option FnError :=
  match entries with
  | [] => ([], none)
  | entry :: rest =>
    let fromPath := pathJoin srcPath entry.«from»
    if !fsys.contains fromPath then
      ([], some (FnError.missingCopySource fromPath))
    else
      let toDest := jsOrStr entry.«to» entry.«from»
      if isAbsolutePath toDest then
        ([], some (FnError.invalidCopyDestination toDest))
      else
        let toPath := pathJoin buildPath toDest
        let r := copyFilesGo rest srcPath buildPath fsys
        ((fromPath, toPath) :: r.1, r.2)

/-- Function.copyFiles: no work when the bundle is absent, a boolean, or has
no copyFiles list; otherwise run the per-entry loop. -/
def copyFiles (bundle : Option FunctionBundleProp)
    (srcPath buildPath : String) (fsys : List String) :
    List (String × String) × Option FnError :=
  match bundle with
  | none => ([], none)
  | some (FunctionBundleProp.bool _) => ([], none)
  | some b =>
    match bundleCopyFiles (some b) with
    | none => ([], none)
    | some entries => copyFilesGo entries srcPath buildPath fsys

end Function

/-- An SSM StringParameter created in the layer-owning stack. -/
structure SsmParam where
  parameterName : String
  stringValue : Arn
deriving DecidableEq, Repr

/-- The result of resolving one layer reference: the original layer handle,
an imported handle built from a concrete ARN string, or an imported handle
reading a published SSM parameter at deploy time. -/
inductive ResolvedLayer where
  | original (l : LayerRef)
  | importedArn (id : String) (arn : String)
  | importedParam (id : String) (paramName : String)
deriving DecidableEq, Repr

/-- The mutable construct-tree state touched by the layer resolver: stack
dependencies, SSM parameters created in owning stacks (keyed by owning stack
ref and construct id), and the children of the one consuming scope (keyed by
construct id). -/
structure ResolverState where
  stackDeps : List (Nat × Nat) := []
  ssmParams : List ((Nat × String) × SsmParam) := []
  scopeChildren : List (String × ResolvedLayer) := []
deriving DecidableEq, Repr

/-- Stack.addDependency: record the edge once (CDK deduplicates). -/
def addDependency (st : ResolverState) (d : Nat × Nat) : ResolverState :=
  if st.stackDeps.contains d then st
  else { st with stackDeps := d :: st.stackDeps }

/-- The SSM parameter construct id for a foreign layer: its node id, the text
Arn, a dash, its node address. -/
def layerParameterId (l : LayerRef) : String :=
  l.nodeId ++ "Arn-" ++ l.nodeAddr

/-- The published-parameter name for a foreign layer: /layers/ then the
owning stack node id, a slash, and the parameter construct id. -/
def layerParameterName (l : LayerRef) : String :=
  "/layers/" ++ l.stack.nodeId ++ "/" ++ layerParameterId l

/-- The consuming-scope construct id of the imported layer reference. -/
def layerImportId (l : LayerRef) : String :=
  "I" ++ l.nodeId ++ "-" ++ l.nodeAddr

namespace Function

/-- Function.handleImportedLayer: a layer of the current stack, or one whose
ARN is already concrete, is used directly.  A foreign layer adds a stack
dependency, creates-or-reuses the SSM parameter in the owning stack, then
creates-or-reuses (cached on the consuming scope, keyed by the import id) the
imported reference that reads the published parameter. -/
def handleImportedLayer (currentStack : Stack) (layer : LayerRef)
    (st : ResolverState) : ResolvedLayer × ResolverState :=
  if layer.stack = currentStack || !layer.arn.isUnresolved then
    (ResolvedLayer.original layer, st)
  else
    let st := addDependency st (currentStack.ref, layer.stack.ref)
    let parameterId := layerParameterId layer
    let parameterName := layerParameterName layer
    let st :=
      if (st.ssmParams.lookup (layer.stack.ref, parameterId)).isSome then st
      else { st with ssmParams :=
        ((layer.stack.ref, parameterId),
          { parameterName := parameterName, stringValue := layer.arn }) ::
            st.ssmParams }
    let layerId := layerImportId layer
    match st.scopeChildren.lookup layerId with
    | some existingLayer => (existingLayer, st)
    | none =>
      let imported := ResolvedLayer.importedParam layerId parameterName
      (imported, { st with scopeChildren := (layerId, imported) :: st.scopeChildren })

/-- Function.buildLayers: each string entry is imported directly from its ARN
under the construct id formed from the function id and the ARN; each resource
handle goes through handleImportedLayer.  The unguarded child registration of
fromLayerVersionArn for the string case is recorded in the scope children
without a duplicate-id check, as a cons. -/
def buildLayers (id : String) (currentStack : Stack)
    (layers : List LayerInput) (st : ResolverState) :
    List ResolvedLayer × ResolverState :=
  match layers with
  | [] => ([], st)
  | LayerInput.arnString s :: rest =>
    let resolved := ResolvedLayer.importedArn (id ++ s) s
    let st := { st with scopeChildren := (id ++ s, resolved) :: st.scopeChildren }
    let r := buildLayers id currentStack rest st
    (resolved :: r.1, r.2)
  | LayerInput.layerRef l :: rest =>
    let (resolved, st) := handleImportedLayer currentStack l st
    let r := buildLayers id currentStack rest st
    (resolved :: r.1, r.2)

end Function

/-- The application-level read-only state consulted by the constructor.
ssmPrefix models the external FunctionBinding.ssmPrefix static. -/
structure App where
  mode : String
  skipBuild : Bool
  debugIncreaseTimeout : Bool
  name : String
  stage : String
  ssmPrefix : String
deriving DecidableEq, Repr

/-- The construct scope the function is created in: its node path and its
stack. -/
structure Scope where
  nodePath : String
  stack : Stack
deriving DecidableEq, Repr

/-- Collapse of the three global regex replaces building the local id: every
dollar, slash and dot character becomes a dash. -/
def replaceSpecialChars (s : String) : String :=
  String.mk (s.data.map (fun c => if c == '$' || c == '/' || c == '.' then '-' else c))

/-- The stable local identifier of the function: posix join of the scope node
path and the id, with dollar, slash and dot replaced by dashes. -/
def mkLocalId (scopePath id : String) : String :=
  replaceSpecialChars (pathJoin scopePath id)

/-- The normalized values the constructor computes before picking a
deployment mode, in source order.  All validation failures happen while
producing this record. -/
structure Prepared where
  functionName : Option String
  handler : String
  timeout : DurationVal
  srcPath : String
  runtime : String
  architecture : Option String
  memorySize : MemVal
  diskSize : SizeVal
  tracing : String
  logRetention : Option String
  bundle : Option FunctionBundleProp
  isLiveDevEnabled : Bool
deriving DecidableEq, Repr

/-- The architecture mapping: arm_64 and x86_64 map to the two CDK values,
anything else to undefined. -/
def normalizeArchitecture : Option String → Option String
  | some "arm_64" => some "ARM_64"
  | some "x86_64" => some "X86_64"
  | _ => none

namespace Function

/-- The set-defaults and validate-input phases of the constructor, on the
already merged props, in source order: normalize the fields (normalizeRuntime
can fail), then reject a falsy handler, then apply the per-family bundle
rules: Node defaults the bundle to true and rejects a disabled bundle at the
project root; Python defaults the bundle to an empty object and rejects the
project root outright. -/
def prepare (props : FunctionProps) : Except FnError Prepared :=
  let functionName := props.functionName
  let timeout := normalizeTimeout props.timeout
  let srcPath := normalizeSrcPath (jsOrStr props.srcPath ".")
  match normalizeRuntime props.runtime with
  | Except.error e => Except.error e
  | Except.ok runtime =>
    let architecture := normalizeArchitecture props.architecture
    let memorySize := normalizeMemorySize props.memorySize
    let diskSize := normalizeDiskSize props.diskSize
    let tracing := (props.tracing.getD "active").toUpper
    let logRetention := props.logRetention.map String.toUpper
    let bundle := props.bundle
    let isLiveDevEnabled := props.enableLiveDev != some false
    match props.handler with
    | none => Except.error FnError.missingHandler
    | some handler =>
      if handler = "" then Except.error FnError.missingHandler
      else
        let mk : Option FunctionBundleProp → Prepared := fun bundle =>
          { functionName := functionName, handler := handler,
            timeout := timeout, srcPath := srcPath, runtime := runtime,
            architecture := architecture, memorySize := memorySize,
            diskSize := diskSize, tracing := tracing,
            logRetention := logRetention, bundle := bundle,
            isLiveDevEnabled := isLiveDevEnabled }
        if strStartsWith runtime "nodejs" then
          let bundle := match bundle with
            | none => some (FunctionBundleProp.bool true)
            | some b => some b
          if bundle = some (FunctionBundleProp.bool false) && srcPath = "." then
            Except.error FnError.invalidBundleConfig
          else Except.ok (mk bundle)
        else if strStartsWith runtime "python" then
          let bundle := match bundle with
            | none => some (FunctionBundleProp.python {})
            | some b => some b
          if srcPath = "." then Except.error FnError.invalidBundleConfig
          else Except.ok (mk bundle)
        else Except.ok (mk bundle)

end Function

/-- The registerLambdaHandler payload (the FunctionHandlerProps interface):
the merged props bundle together with the normalized handler, runtime and
source path. -/
structure RegisteredHandler where
  srcPath : String
  handler : String
  bundle : Option FunctionBundleProp
  runtime : String
deriving DecidableEq, Repr

/-- The deployed code artifact passed to the base constructor. -/
inductive CodeArtifact where
  | asset (path : String)
  | inline (code : String)
deriving DecidableEq, Repr

/-- The observable state of the constructed resource: the base-constructor
arguments this file controls, plus the bookkeeping recorded after the super
call.  IAM attachments and the function url are managed by external
collaborators and not recorded. -/
structure ConstructedFunction where
  code : CodeArtifact
  handler : String
  functionName : Option String
  runtime : String
  architecture : Option String
  memorySize : MemVal
  diskSize : SizeVal
  timeout : DurationVal
  tracing : String
  environment : Env
  layers : List ResolvedLayer
  logRetention : Option String
  retryAttempts : Option Int
  localId : String
  isLiveDevEnabled : Bool
  registeredHandler : RegisteredHandler
  deferredBuildScheduled : Bool
deriving DecidableEq, Repr

/-- Apply every entry of one binding environment via addEnvironment. -/
def addAllEnv (e : Env) (entries : Env) : Env :=
  entries.foldl (fun acc kv => addEnv acc kv.1 kv.2) e

/-- The addEnvironment calls made after the super call, in source order: the
Node keep-alive variable for Node-family runtimes, SST_APP, SST_STAGE, and
SST_SSM_PREFIX when the external prefix is non-empty. -/
def sstEnv (app : App) (isNodeRuntime : Bool) (e : Env) : Env :=
  let e := if isNodeRuntime
    then addEnv e "AWS_NODEJS_CONNECTION_REUSE_ENABLED" "1" else e
  let e := addEnv e "SST_APP" app.name
  let e := addEnv e "SST_STAGE" app.stage
  if app.ssmPrefix != "" then addEnv e "SST_SSM_PREFIX" app.ssmPrefix else e

/-- The environment effect of addConfig then bind: each bound construct
contributes its binding-contract environment entries via addEnvironment. -/
def bindAllEnv (constructs : List SSTConstruct) (e : Env) : Env :=
  constructs.foldl (fun acc c => addAllEnv acc c.env) e

/-- The post-super bookkeeping shared by all three modes: the environment
additions and the bound constructs of the merged props (config first, then
bind). -/
def postConstruct (app : App) (props : FunctionProps) (isNodeRuntime : Bool)
    (f : ConstructedFunction) : ConstructedFunction :=
  let bound := props.config.getD [] ++ props.bind.getD []
  let e := bindAllEnv bound (sstEnv app isNodeRuntime f.environment)
  { f with environment := e }

/-- The constructor merge of the stack-level defaultFunctionProps: the chain
is copied, reversed, and folded with each fragment as the base of mergeProps
and the accumulated props as the override. -/
def applyDefaultsChain (defaultFunctionProps : List FunctionProps)
    (props : FunctionProps) : FunctionProps :=
  defaultFunctionProps.reverse.foldl
    (fun props per => Function.mergeProps per props) props

/-- The Function constructor: merge the defaults chain, normalize and
validate, then build the resource in one of the three modes (live
development, skip-build, build), and apply the shared post-super
bookkeeping.  The returned state carries the layer-resolver mutations. -/
def constructFunction (app : App) (defaultFunctionProps : List FunctionProps)
    (scope : Scope) (id : String) (props0 : FunctionProps)
    (st : ResolverState) :
    Except FnError (ConstructedFunction × ResolverState) :=
  let props := applyDefaultsChain defaultFunctionProps props0
  match Function.prepare props with
  | Except.error e => Except.error e
  | Except.ok p =>
    let isNodeRuntime := strStartsWith p.runtime "nodejs"
    let localId := mkLocalId scope.nodePath id
    let registered : RegisteredHandler :=
      { srcPath := p.srcPath, handler := p.handler,
        bundle := props.bundle, runtime := p.runtime }
    if p.isLiveDevEnabled && app.mode == "start" then
      let timeout := if app.debugIncreaseTimeout
        then DurationVal.seconds 900 else p.timeout
      let superEnv := objSpread (props.environment.getD [])
        [("SST_DEBUG_SRC_PATH", p.srcPath),
         ("SST_DEBUG_SRC_HANDLER", p.handler),
         ("SST_FUNCTION_ID", localId)]
      Except.ok (postConstruct app props isNodeRuntime
        { code := CodeArtifact.asset "../dist/support/bridge",
          handler := "bridge.handler", functionName := p.functionName,
          runtime := "nodejs16.x", architecture := p.architecture,
          memorySize := p.memorySize, diskSize := p.diskSize,
          timeout := timeout, tracing := p.tracing,
          environment := superEnv, layers := [],
          logRetention := p.logRetention, retryAttempts := some 0,
          localId := localId, isLiveDevEnabled := p.isLiveDevEnabled,
          registeredHandler := registered,
          deferredBuildScheduled := false }, st)
    else if app.skipBuild then
      let bl := Function.buildLayers id scope.stack (props.layers.getD []) st
      Except.ok (postConstruct app props isNodeRuntime
        { code := CodeArtifact.inline "export function placeholder() \x7b\x7d",
          handler := "index.placeholder", functionName := p.functionName,
          runtime := "nodejs16.x", architecture := p.architecture,
          memorySize := p.memorySize, diskSize := p.diskSize,
          timeout := p.timeout, tracing := p.tracing,
          environment := props.environment.getD [], layers := bl.1,
          logRetention := p.logRetention, retryAttempts := none,
          localId := localId, isLiveDevEnabled := p.isLiveDevEnabled,
          registeredHandler := registered,
          deferredBuildScheduled := false }, bl.2)
    else
      let bl := Function.buildLayers id scope.stack (props.layers.getD []) st
      Except.ok (postConstruct app props isNodeRuntime
        { code := CodeArtifact.inline "export function placeholder() \x7b\x7d",
          handler := "index.placeholder", functionName := p.functionName,
          runtime := "nodejs16.x", architecture := p.architecture,
          memorySize := p.memorySize, diskSize := p.diskSize,
          timeout := p.timeout, tracing := p.tracing,
          environment := props.environment.getD [], layers := bl.1,
          logRetention := p.logRetention, retryAttempts := none,
          localId := localId, isLiveDevEnabled := p.isLiveDevEnabled,
          registeredHandler := registered,
          deferredBuildScheduled := true }, bl.2)

/-- The merge order the spec states for the defaults chain: the left-to-right
fold merge(merge(...merge(d1,d2)...,dn), p), with an empty chain yielding the
explicit props unchanged.  Written from the words of the spec for comparison
with applyDefaultsChain. -/
def specMergeLeftToRight : List FunctionProps → FunctionProps → FunctionProps
  | [], p => p
  | d :: ds, p => Function.mergeProps (ds.foldl Function.mergeProps d) p

/-- A placeholder resource value, only used to give total observers of
Except-valued construction results. -/
def emptyConstructedFunction : ConstructedFunction where
  code := CodeArtifact.inline ""
  handler := ""
  functionName := none
  runtime := ""
  architecture := none
  memorySize := MemVal.mb 0
  diskSize := SizeVal.mebibytes 0
  timeout := DurationVal.seconds 0
  tracing := ""
  environment := []
  layers := []
  logRetention := none
  retryAttempts := none
  localId := ""
  isLiveDevEnabled := false
  registeredHandler := { srcPath := "", handler := "", bundle := none, runtime := "" }
  deferredBuildScheduled := false

/-- The constructed resource of a successful construction. -/
def resultFun (r : Except FnError (ConstructedFunction × ResolverState)) :
    ConstructedFunction :=
  match r with
  | Except.ok (f, _) => f
  | Except.error _ => emptyConstructedFunction

/-- The resolver state of a successful construction. -/
def resultState (r : Except FnError (ConstructedFunction × ResolverState)) :
    ResolverState :=
  match r with
  | Except.ok (_, st) => st
  | Except.error _ => {}

/-- Whether a construction succeeded. -/
def resultIsOk (r : Except FnError (ConstructedFunction × ResolverState)) : Bool :=
  match r with
  | Except.ok _ => true
  | Except.error _ => false

/-- Test fixture: an application in interactive start mode. -/
def app0 : App where
  mode := "start"
  skipBuild := false
  debugIncreaseTimeout := false
  name := "my-app"
  stage := "dev"
  ssmPrefix := ""

/-- Test fixture: an application in deploy mode. -/
def app1 : App where
  mode := "deploy"
  skipBuild := false
  debugIncreaseTimeout := false
  name := "my-app"
  stage := "dev"
  ssmPrefix := ""

/-- Test fixture: an application in start mode with the debug-timeout
override flag set. -/
def appDbg : App where
  mode := "start"
  skipBuild := false
  debugIncreaseTimeout := true
  name := "my-app"
  stage := "dev"
  ssmPrefix := ""

/-- Test fixture: a consuming scope in stack 0. -/
def scope0 : Scope where
  nodePath := "my-app-dev-MyStack"
  stack := { ref := 0, nodeId := "MyStack" }

/-- Test fixture: the empty resolver state. -/
def st0 : ResolverState := {}

/-- Test fixture for the reserved-key collision: a live-dev function whose
user environment tries to set two reserved keys. -/
def props9 : FunctionProps where
  handler := some "src/lambda.handler"
  environment := some [("SST_APP", "hacked"), ("SST_FUNCTION_ID", "fake")]

/-- Test fixture: a live-dev function with a non-Node declared runtime. -/
def props3 : FunctionProps where
  handler := some "src/index.main"
  runtime := some "go1.x"
  srcPath := some "services"

/-- Test fixture: no handler and an unsupported runtime at the same time. -/
def props5c : FunctionProps where
  runtime := some "ruby2.7"

/-- Test fixture: the end-to-end python example of the spec: handler
src/api.handler, runtime python3.9, srcPath the project root. -/
def props5ex : FunctionProps where
  handler := some "src/api.handler"
  runtime := some "python3.9"
  srcPath := some "."

/-- Test fixture: a foreign layer owned by stack 1 with an unresolved ARN. -/
def layerA : LayerRef where
  stack := { ref := 1, nodeId := "LayerStack" }
  nodeId := "MyLayer"
  nodeAddr := "c8a3f1"
  arn := Arn.token 7

/-- Test fixture: a second, distinct foreign layer owned by stack 1. -/
def layerB : LayerRef where
  stack := { ref := 1, nodeId := "LayerStack" }
  nodeId := "MyLayer"
  nodeAddr := "d44b02"
  arn := Arn.token 8

/-- Test fixture: the outermost defaults fragment of the end-to-end merge
example: timeout 5 and environment A maps to 1. -/
def propsD1 : FunctionProps where
  timeout := some (NumOrStr.num 5)
  environment := some [("A", "1")]

/-- Test fixture: the second defaults fragment: timeout 30. -/
def propsD2 : FunctionProps where
  timeout := some (NumOrStr.num 30)

/-- Test fixture: the explicit props of the merge example: environment B
maps to 2. -/
def propsD3 : FunctionProps where
  environment := some [("B", "2")]

theorem optOrElse_assoc {α : Type} (a b c : Option α) :
    ((a <|> b) <|> c) = (a <|> (b <|> c)) := by
  cases a <;> rfl

theorem optOr_eq_orElse {α : Type} (a b : Option α) : a.or b = (a <|> b) := by
  cases a <;> rfl

theorem envContainsKey_append (a b : Env) (k : String) :
    envContainsKey (a ++ b) k = (envContainsKey a k || envContainsKey b k) := by
  simp [envContainsKey, List.any_append]

theorem envContainsKey_cons (e : String × String) (t : Env) (k : String) :
    envContainsKey (e :: t) k = ((k == e.1) || envContainsKey t k) := by
  simp [envContainsKey]

theorem any_not_contains (b l : Env) (k : String) :
    (l.any fun p => !envContainsKey b p.1 && (k == p.1))
      = (envContainsKey l k && !envContainsKey b k) := by
  induction l with
  | nil => simp [envContainsKey]
  | cons e t ih =>
    rw [List.any_cons, ih, envContainsKey_cons]
    cases hk : (k == e.1) with
    | false =>
      cases envContainsKey t k <;> cases envContainsKey b k <;> simp
    | true =>
      have hke : k = e.1 := eq_of_beq hk
      subst hke
      cases envContainsKey b e.1 <;> cases envContainsKey t e.1 <;> simp

theorem envContainsKey_objSpread (a b : Env) (k : String) :
    envContainsKey (objSpread a b) k
      = (envContainsKey a k || envContainsKey b k) := by
  rw [objSpread, envContainsKey_append]
  rw [show envContainsKey (a.filter fun p => !envContainsKey b p.1) k
        = (a.any fun p => !envContainsKey b p.1 && (k == p.1)) by
      simp [envContainsKey, List.any_filter]]
  rw [any_not_contains]
  cases envContainsKey a k <;> cases envContainsKey b k <;> simp

theorem objSpread_nil_left (b : Env) : objSpread [] b = b := rfl

theorem objSpread_nil_right (a : Env) : objSpread a [] = a := by
  simp [objSpread, envContainsKey]

theorem objSpread_assoc (a b c : Env) :
    objSpread (objSpread a b) c = objSpread a (objSpread b c) := by
  simp only [objSpread, List.filter_append, List.filter_filter, List.append_assoc]
  congr 1
  apply List.filter_congr
  intro p _
  rw [show envContainsKey ((b.filter fun q => !envContainsKey c q.1) ++ c) p.1
        = (envContainsKey b p.1 || envContainsKey c p.1) from
      envContainsKey_objSpread b c p.1]
  cases envContainsKey b p.1 <;> cases envContainsKey c p.1 <;> rfl

theorem objSpread_eq_nil_iff (a b : Env) :
    objSpread a b = [] ↔ a = [] ∧ b = [] := by
  constructor
  · intro h
    have h2 := List.append_eq_nil.mp h
    have hb : b = [] := h2.2
    subst hb
    rw [show a.filter (fun p => !envContainsKey ([] : Env) p.1) = a by
      simp [envContainsKey]] at h2
    exact ⟨h2.1, rfl⟩
  · rintro ⟨rfl, rfl⟩
    rfl

theorem mergeOptList_eq {α : Type} (a b : Option (List α)) :
    mergeOptList a b
      = (match a, b with
          | none, none => none
          | _, _ => some (a.getD [] ++ b.getD [])) := by
  rcases a with _ | (_ | ⟨x, la⟩) <;> rcases b with _ | (_ | ⟨y, lb⟩) <;> rfl

theorem mergeOptList_assoc {α : Type} (a b c : Option (List α)) :
    mergeOptList (mergeOptList a b) c = mergeOptList a (mergeOptList b c) := by
  rw [mergeOptList_eq (mergeOptList a b) c, mergeOptList_eq a b,
    mergeOptList_eq a (mergeOptList b c), mergeOptList_eq b c]
  rcases a with _ | la <;> rcases b with _ | lb <;> rcases c with _ | lc <;>
    simp [List.append_assoc]

theorem mergeOptEnv_eq (a b : Option Env) :
    mergeOptEnv a b
      = (match a, b with
          | none, none => none
          | _, _ => some (objSpread (a.getD []) (b.getD []))) := by
  rcases a with _ | la <;> rcases b with _ | lb
  · rfl
  · simp only [mergeOptEnv, Option.getD_none, Option.getD_some, objSpread_nil_left]
    by_cases h : lb = []
    · subst h; simp
    · simp [List.isEmpty_eq_true, h]
  · simp only [mergeOptEnv, Option.getD_none, Option.getD_some, objSpread_nil_right]
    by_cases h : la = []
    · subst h; simp
    · simp [List.isEmpty_eq_true, h]
  · simp only [mergeOptEnv, Option.getD_some]
    by_cases h : objSpread la lb = []
    · obtain ⟨h1, h2⟩ := (objSpread_eq_nil_iff la lb).mp h
      subst h1; subst h2; simp
    · simp [List.isEmpty_eq_true, h]

theorem mergeOptEnv_assoc (a b c : Option Env) :
    mergeOptEnv (mergeOptEnv a b) c = mergeOptEnv a (mergeOptEnv b c) := by
  rw [mergeOptEnv_eq (mergeOptEnv a b) c, mergeOptEnv_eq a b,
    mergeOptEnv_eq a (mergeOptEnv b c), mergeOptEnv_eq b c]
  rcases a with _ | la <;> rcases b with _ | lb <;> rcases c with _ | lc <;>
    simp [objSpread_nil_left, objSpread_nil_right, objSpread_assoc]

theorem mergePermissionsField_eq (a b : Option Permissions) :
    mergePermissionsField a b
      = (if a = some Permissions.star ∨ b = some Permissions.star then
          some Permissions.star
        else match a, b with
          | none, none => none
          | _, _ => some (Permissions.list (permEntries a ++ permEntries b))) := by
  rcases a with _ | (_ | la)
  · rcases b with _ | (_ | lb)
    · rfl
    · simp [mergePermissionsField, permEntries]
    · rcases lb with _ | ⟨x, t⟩ <;> simp [mergePermissionsField, permEntries]
  · simp [mergePermissionsField]
  · rcases b with _ | (_ | lb)
    · rcases la with _ | ⟨x, t⟩ <;> simp [mergePermissionsField, permEntries]
    · simp [mergePermissionsField, permEntries]
    · by_cases h : la ++ lb = []
      · obtain ⟨h1, h2⟩ := List.append_eq_nil.mp h
        subst h1; subst h2
        simp [mergePermissionsField, permEntries]
      · simp [mergePermissionsField, permEntries, List.isEmpty_eq_true, h]

theorem mergePermissionsField_assoc (a b c : Option Permissions) :
    mergePermissionsField (mergePermissionsField a b) c
      = mergePermissionsField a (mergePermissionsField b c) := by
  rw [mergePermissionsField_eq (mergePermissionsField a b) c,
    mergePermissionsField_eq a b,
    mergePermissionsField_eq a (mergePermissionsField b c),
    mergePermissionsField_eq b c]
  rcases a with _ | (_ | la) <;> rcases b with _ | (_ | lb) <;>
    rcases c with _ | (_ | lc) <;>
    simp [permEntries, List.append_assoc]

theorem mergeProps_assoc (a b c : FunctionProps) :
    Function.mergeProps (Function.mergeProps a b) c
      = Function.mergeProps a (Function.mergeProps b c) := by
  simp only [Function.mergeProps, FunctionProps.mk.injEq]
  refine ⟨(optOrElse_assoc _ _ _).symm, (optOrElse_assoc _ _ _).symm,
    (optOrElse_assoc _ _ _).symm, (optOrElse_assoc _ _ _).symm,
    (optOrElse_assoc _ _ _).symm, (optOrElse_assoc _ _ _).symm,
    (optOrElse_assoc _ _ _).symm, (optOrElse_assoc _ _ _).symm,
    (optOrElse_assoc _ _ _).symm, (optOrElse_assoc _ _ _).symm,
    mergeOptEnv_assoc _ _ _, (optOrElse_assoc _ _ _).symm,
    mergeOptList_assoc _ _ _, mergeOptList_assoc _ _ _,
    mergePermissionsField_assoc _ _ _, (optOrElse_assoc _ _ _).symm,
    mergeOptList_assoc _ _ _, (optOrElse_assoc _ _ _).symm⟩

theorem applyDefaultsChain_eq_foldr (chain : List FunctionProps)
    (p : FunctionProps) :
    applyDefaultsChain chain p
      = chain.foldr (fun per acc => Function.mergeProps per acc) p := by
  simp [applyDefaultsChain, List.foldl_reverse]

theorem foldl_merge_left (ds : List FunctionProps) (d e : FunctionProps) :
    Function.mergeProps d (ds.foldl Function.mergeProps e)
      = ds.foldl Function.mergeProps (Function.mergeProps d e) := by
  induction ds generalizing e with
  | nil => rfl
  | cons x t ih =>
    rw [List.foldl_cons, List.foldl_cons, ih, mergeProps_assoc]

theorem applyDefaultsChain_eq_spec (chain : List FunctionProps)
    (p : FunctionProps) :
    applyDefaultsChain chain p = specMergeLeftToRight chain p := by
  rw [applyDefaultsChain_eq_foldr]
  cases chain with
  | nil => rfl
  | cons d ds =>
    rw [specMergeLeftToRight]
    induction ds generalizing d with
    | nil => rfl
    | cons e t ih =>
      rw [List.foldr_cons, ih e, ← mergeProps_assoc, List.foldl_cons,
        foldl_merge_left]

theorem foldr_merge_findSome {β : Type} (g : FunctionProps → Option β)
    (hg : ∀ a b, g (Function.mergeProps a b) = (g b <|> g a))
    (chain : List FunctionProps) (p : FunctionProps) :
    g (chain.foldr (fun per acc => Function.mergeProps per acc) p)
      = List.findSome? g (p :: chain.reverse) := by
  induction chain with
  | nil =>
    show g p = List.findSome? g [p]
    cases h : g p <;> simp [List.findSome?, h]
  | cons d t ih =>
    rw [List.foldr_cons, hg, ih]
    rw [show (d :: t).reverse = t.reverse ++ [d] from List.reverse_cons d t]
    rw [show p :: (t.reverse ++ [d]) = (p :: t.reverse) ++ [d] from rfl]
    rw [List.findSome?_append, optOr_eq_orElse]
    cases h : g d <;> simp [List.findSome?, h]

/-- Claim C1: applying the defaults chain the way the constructor does
(reverse the chain and fold with each fragment as the merge base) yields the
same FunctionProps as the left-to-right fold the spec describes, and every
scalar field of the result is the value of the most specific fragment that
defines it, probing the explicit props first, then the chain from its last
fragment back to its first. -/
theorem claim1_defaults_chain_refines_spec_fold :
    ∀ (chain : List FunctionProps) (p : FunctionProps),
      applyDefaultsChain chain p = specMergeLeftToRight chain p
      ∧ (applyDefaultsChain chain p).handler
          = List.findSome? (fun q => q.handler) (p :: chain.reverse)
      ∧ (applyDefaultsChain chain p).srcPath
          = List.findSome? (fun q => q.srcPath) (p :: chain.reverse)
      ∧ (applyDefaultsChain chain p).runtime
          = List.findSome? (fun q => q.runtime) (p :: chain.reverse)
      ∧ (applyDefaultsChain chain p).timeout
          = List.findSome? (fun q => q.timeout) (p :: chain.reverse)
      ∧ (applyDefaultsChain chain p).memorySize
          = List.findSome? (fun q => q.memorySize) (p :: chain.reverse)
      ∧ (applyDefaultsChain chain p).diskSize
          = List.findSome? (fun q => q.diskSize) (p :: chain.reverse)
      ∧ (applyDefaultsChain chain p).architecture
          = List.findSome? (fun q => q.architecture) (p :: chain.reverse)
      ∧ (applyDefaultsChain chain p).functionName
          = List.findSome? (fun q => q.functionName) (p :: chain.reverse)
      ∧ (applyDefaultsChain chain p).tracing
          = List.findSome? (fun q => q.tracing) (p :: chain.reverse)
      ∧ (applyDefaultsChain chain p).enableLiveDev
          = List.findSome? (fun q => q.enableLiveDev) (p :: chain.reverse)
      ∧ (applyDefaultsChain chain p).bundle
          = List.findSome? (fun q => q.bundle) (p :: chain.reverse)
      ∧ (applyDefaultsChain chain p).url
          = List.findSome? (fun q => q.url) (p :: chain.reverse)
      ∧ (applyDefaultsChain chain p).logRetention
          = List.findSome? (fun q => q.logRetention) (p :: chain.reverse) := by
  intro chain p
  refine ⟨applyDefaultsChain_eq_spec chain p, ?_, ?_, ?_, ?_, ?_, ?_, ?_, ?_,
    ?_, ?_, ?_, ?_, ?_⟩ <;>
    rw [applyDefaultsChain_eq_foldr] <;>
    exact foldr_merge_findSome _ (fun a b => rfl) chain p

/-- Claim C2: merging two permission sets in mergeProps is absorbed by the
wildcard (either side being the wildcard makes the result the wildcard), and
when neither side is the wildcard the result is never the wildcard and its
entry list is exactly the base entries followed by the override entries, with
nothing dropped or deduplicated. -/
theorem claim2_permissions_wildcard_and_concat :
    ∀ base override : FunctionProps,
      ((base.permissions = some Permissions.star
          ∨ override.permissions = some Permissions.star) →
        (Function.mergeProps base override).permissions
          = some Permissions.star)
      ∧ (base.permissions ≠ some Permissions.star →
          override.permissions ≠ some Permissions.star →
          (Function.mergeProps base override).permissions
            ≠ some Permissions.star
          ∧ permEntries (Function.mergeProps base override).permissions
            = permEntries base.permissions
              ++ permEntries override.permissions) := by
  intro base override
  have hmp : (Function.mergeProps base override).permissions
      = mergePermissionsField base.permissions override.permissions := rfl
  constructor
  · intro h
    rw [hmp, mergePermissionsField_eq, if_pos h]
  · intro h1 h2
    have hor : ¬(base.permissions = some Permissions.star
        ∨ override.permissions = some Permissions.star) := by
      rintro (h | h)
      · exact h1 h
      · exact h2 h
    rw [hmp, mergePermissionsField_eq, if_neg hor]
    rcases hb : base.permissions with _ | (_ | lb) <;>
      rcases ho : override.permissions with _ | (_ | lo) <;>
      first
        | exact absurd hb h1
        | exact absurd ho h2
        | simp [permEntries]

/-- Witness for claim C2 at concrete permission sets: a wildcard base absorbs,
and two non-wildcard sets concatenate keeping the duplicate entry. -/
theorem claim2_witness :
    (Function.mergeProps { permissions := some Permissions.star }
        { permissions := some (Permissions.list ["s3"]) }).permissions
      = some Permissions.star
    ∧ permEntries (Function.mergeProps
        { permissions := some (Permissions.list ["s3", "ses"]) }
        { permissions := some (Permissions.list ["ses", "dynamodb"]) }).permissions
      = ["s3", "ses", "ses", "dynamodb"] := by
  constructor
  · exact (claim2_permissions_wildcard_and_concat
      { permissions := some Permissions.star }
      { permissions := some (Permissions.list ["s3"]) }).1 (Or.inl rfl)
  · exact ((claim2_permissions_wildcard_and_concat
      { permissions := some (Permissions.list ["s3", "ses"]) }
      { permissions := some (Permissions.list ["ses", "dynamodb"]) }).2
        (by decide) (by decide)).2

theorem envLookup_nil (k : String) : envLookup [] k = none := rfl

theorem envLookup_append (a b : Env) (k : String) :
    envLookup (a ++ b) k = (envLookup a k <|> envLookup b k) := by
  induction a with
  | nil => simp [envLookup]
  | cons e t ih =>
    cases hk : (k == e.1) with
    | true =>
      simp [envLookup, List.lookup, hk]
    | false =>
      simp only [List.cons_append]
      rw [show envLookup ((e :: (t ++ b))) k = envLookup (t ++ b) k by
        simp [envLookup, List.lookup, hk]]
      rw [show envLookup (e :: t) k = envLookup t k by
        simp [envLookup, List.lookup, hk]]
      exact ih

theorem envContainsKey_eq_isSome (e : Env) (k : String) :
    envContainsKey e k = (envLookup e k).isSome := by
  induction e with
  | nil => rfl
  | cons p t ih =>
    rw [envContainsKey_cons]
    cases hk : (k == p.1) with
    | true => simp [envLookup, List.lookup, hk]
    | false =>
      rw [show envLookup (p :: t) k = envLookup t k by
        simp [envLookup, List.lookup, hk]]
      simp [ih]

theorem envLookup_filter_not (b l : Env) (k : String) :
    envLookup (l.filter fun p => !envContainsKey b p.1) k
      = (if envContainsKey b k then none else envLookup l k) := by
  induction l with
  | nil => cases envContainsKey b k <;> simp [envLookup]
  | cons e t ih =>
    cases hc : envContainsKey b e.1 with
    | true =>
      have hfil : List.filter (fun p => !envContainsKey b p.1) (e :: t)
          = List.filter (fun p => !envContainsKey b p.1) t := by
        simp [List.filter_cons, hc]
      rw [hfil, ih]
      cases hk : (k == e.1) with
      | true =>
        have hke : k = e.1 := eq_of_beq hk
        subst hke
        rw [if_pos hc, if_pos hc]
      | false =>
        rw [show envLookup (e :: t) k = envLookup t k by
          simp [envLookup, List.lookup, hk]]
    | false =>
      have hfil : List.filter (fun p => !envContainsKey b p.1) (e :: t)
          = e :: List.filter (fun p => !envContainsKey b p.1) t := by
        simp [List.filter_cons, hc]
      rw [hfil]
      cases hk : (k == e.1) with
      | true =>
        have hke : k = e.1 := eq_of_beq hk
        subst hke
        rw [if_neg (by simp [hc])]
        simp [envLookup, List.lookup]
      | false =>
        rw [show envLookup (e :: (t.filter fun p => !envContainsKey b p.1)) k
            = envLookup (t.filter fun p => !envContainsKey b p.1) k by
          simp [envLookup, List.lookup, hk]]
        rw [ih]
        rw [show envLookup (e :: t) k = envLookup t k by
          simp [envLookup, List.lookup, hk]]

theorem envLookup_objSpread (a b : Env) (k : String) :
    envLookup (objSpread a b) k = (envLookup b k <|> envLookup a k) := by
  rw [objSpread, envLookup_append, envLookup_filter_not]
  cases hc : envContainsKey b k with
  | false =>
    have hb : envLookup b k = none := by
      rw [envContainsKey_eq_isSome] at hc
      exact Option.not_isSome_iff_eq_none.mp (by simp [hc])
    rw [hb]
    cases envLookup a k <;> rfl
  | true =>
    have hb : (envLookup b k).isSome := by
      rw [envContainsKey_eq_isSome] at hc
      exact hc
    obtain ⟨v, hv⟩ := Option.isSome_iff_exists.mp hb
    rw [hv]
    rfl

theorem envLookup_addEnv (e : Env) (k k' v : String) :
    envLookup (addEnv e k' v) k = (if k = k' then some v else envLookup e k) := by
  rw [addEnv, envLookup_objSpread]
  by_cases h : k = k'
  · subst h
    rw [if_pos rfl]
    rw [show envLookup [(k, v)] k = some v by simp [envLookup, List.lookup]]
    rfl
  · rw [if_neg h]
    rw [show envLookup [(k', v)] k = none by
      simp [envLookup, List.lookup, beq_eq_false_iff_ne.mpr h]]
    cases envLookup e k <;> rfl

theorem mergeOptList_getD {α : Type} (a b : Option (List α)) :
    (mergeOptList a b).getD [] = a.getD [] ++ b.getD [] := by
  rw [mergeOptList_eq]
  rcases a with _ | la <;> rcases b with _ | lb <;> simp

theorem mergeOptEnv_lookup (a b : Option Env) (k : String) :
    envLookup ((mergeOptEnv a b).getD []) k
      = (envLookup (b.getD []) k <|> envLookup (a.getD []) k) := by
  rw [mergeOptEnv_eq]
  rcases a with _ | la <;> rcases b with _ | lb <;>
    simp only [Option.getD_some, Option.getD_none, objSpread_nil_left,
      objSpread_nil_right, envLookup_objSpread]
  · rfl
  · cases envLookup lb k <;> rfl
  · cases envLookup la k <;> rfl

/-- Claim C6: mergeProps merges environments as a shallow union in which the
override value wins on every shared key, concatenates the layers, config and
bind lists with the base entries first, and on the end-to-end example of two
defaults fragments (timeout 5 with env A, then timeout 30) under explicit
props with env B, the merged props carry timeout 30 and an environment with
both A and B. -/
theorem claim6_env_union_list_concat :
    (∀ (base override : FunctionProps) (k : String),
      envLookup ((Function.mergeProps base override).environment.getD []) k
        = (envLookup (override.environment.getD []) k
            <|> envLookup (base.environment.getD []) k))
    ∧ (∀ base override : FunctionProps,
        (Function.mergeProps base override).layers.getD []
          = base.layers.getD [] ++ override.layers.getD []
        ∧ (Function.mergeProps base override).config.getD []
          = base.config.getD [] ++ override.config.getD []
        ∧ (Function.mergeProps base override).bind.getD []
          = base.bind.getD [] ++ override.bind.getD [])
    ∧ (applyDefaultsChain [propsD1, propsD2] propsD3).timeout
        = some (NumOrStr.num 30)
    ∧ envLookup
        ((applyDefaultsChain [propsD1, propsD2] propsD3).environment.getD [])
        "A" = some "1"
    ∧ envLookup
        ((applyDefaultsChain [propsD1, propsD2] propsD3).environment.getD [])
        "B" = some "2" := by
  refine ⟨?_, ?_, by decide, by decide, by decide⟩
  · intro base override k
    exact mergeOptEnv_lookup base.environment override.environment k
  · intro base override
    exact ⟨mergeOptList_getD base.layers override.layers,
      mergeOptList_getD base.config override.config,
      mergeOptList_getD base.bind override.bind⟩

/-- Claim C7: normalizeRuntime of an absent value is the default nodejs14.x,
any identifier outside the supported set fails with UnsupportedRuntime, and
any identifier inside the set is returned unchanged. -/
theorem claim7_normalize_runtime :
    Function.normalizeRuntime none = Except.ok "nodejs14.x"
    ∧ (∀ r : String, r ∉ supportedRuntimes →
        Function.normalizeRuntime (some r)
          = Except.error FnError.unsupportedRuntime)
    ∧ (∀ r : String, r ∈ supportedRuntimes →
        Function.normalizeRuntime (some r) = Except.ok r) := by
  refine ⟨rfl, ?_, ?_⟩
  · intro r h
    simp [Function.normalizeRuntime, h]
  · intro r h
    simp [Function.normalizeRuntime, h]

/-- Witness for claim C7: the default on an absent runtime, a failure on the
unsupported ruby2.7, and go1.x returned unchanged. -/
theorem claim7_witness :
    Function.normalizeRuntime none = Except.ok "nodejs14.x"
    ∧ Function.normalizeRuntime (some "ruby2.7")
        = Except.error FnError.unsupportedRuntime
    ∧ Function.normalizeRuntime (some "go1.x") = Except.ok "go1.x" :=
  ⟨claim7_normalize_runtime.1,
    claim7_normalize_runtime.2.1 "ruby2.7" (by decide),
    claim7_normalize_runtime.2.2 "go1.x" (by decide)⟩

/-- Claim C10: a numeric zero given to each size and duration normalizer
yields the documented default, exactly as an absent value does: timeout 10
seconds, memory 1024 MB, disk 512 MB. -/
theorem claim10_zero_is_default :
    Function.normalizeTimeout (some (NumOrStr.num 0)) = DurationVal.seconds 10
    ∧ Function.normalizeTimeout none = DurationVal.seconds 10
    ∧ Function.normalizeMemorySize (some (NumOrStr.num 0)) = MemVal.mb 1024
    ∧ Function.normalizeMemorySize none = MemVal.mb 1024
    ∧ Function.normalizeDiskSize (some (NumOrStr.num 0))
        = SizeVal.mebibytes 512
    ∧ Function.normalizeDiskSize none = SizeVal.mebibytes 512 := by
  refine ⟨?_, rfl, ?_, rfl, ?_, rfl⟩ <;> simp [Function.normalizeTimeout,
    Function.normalizeMemorySize, Function.normalizeDiskSize]

theorem addDependency_stackDeps_contains (st : ResolverState) (d : Nat × Nat) :
    (addDependency st d).stackDeps.contains d = true := by
  unfold addDependency
  split
  · next h => exact h
  · simp

theorem addDependency_of_contains (st : ResolverState) (d : Nat × Nat)
    (h : st.stackDeps.contains d = true) : addDependency st d = st := by
  unfold addDependency
  rw [if_pos h]

theorem addDependency_ssmParams (st : ResolverState) (d : Nat × Nat) :
    (addDependency st d).ssmParams = st.ssmParams := by
  unfold addDependency
  by_cases h : st.stackDeps.contains d = true
  · rw [if_pos h]
  · rw [if_neg h]

theorem addDependency_scopeChildren (st : ResolverState) (d : Nat × Nat) :
    (addDependency st d).scopeChildren = st.scopeChildren := by
  unfold addDependency
  by_cases h : st.stackDeps.contains d = true
  · rw [if_pos h]
  · rw [if_neg h]

theorem append_dash_head_inj :
    ∀ (p : List Char) (r : List Char) (q s : List Char),
      (∀ c ∈ p, c ≠ '-') → (∀ c ∈ r, c ≠ '-') →
      p ++ '-' :: q = r ++ '-' :: s → p = r ∧ q = s := by
  intro p
  induction p with
  | nil =>
    intro r q s hp hr h
    cases r with
    | nil => simpa using h
    | cons c r' =>
      exfalso
      simp only [List.nil_append, List.cons_append, List.cons.injEq] at h
      exact hr c (by simp) h.1.symm
  | cons c p' ih =>
    intro r q s hp hr h
    cases r with
    | nil =>
      exfalso
      simp only [List.nil_append, List.cons_append, List.cons.injEq] at h
      exact hp c (by simp) h.1
    | cons d r' =>
      simp only [List.cons_append, List.cons.injEq] at h
      have ht := ih r' q s (fun x hx => hp x (by simp [hx]))
        (fun x hx => hr x (by simp [hx])) h.2
      exact ⟨by rw [h.1, ht.1], ht.2⟩

theorem dashSuffix_inj (x y a b : List Char)
    (ha : ∀ c ∈ a, c ≠ '-') (hb : ∀ c ∈ b, c ≠ '-')
    (h : x ++ '-' :: a = y ++ '-' :: b) : a = b := by
  have h' := congrArg List.reverse h
  simp only [List.reverse_append, List.reverse_cons, List.append_assoc,
    List.singleton_append] at h'
  have := append_dash_head_inj a.reverse b.reverse x.reverse y.reverse
    (fun c hc => ha c (List.mem_reverse.mp hc))
    (fun c hc => hb c (List.mem_reverse.mp hc)) h'
  exact List.reverse_inj.mp this.1

theorem layerParameterName_data (l : LayerRef) :
    (layerParameterName l).data
      = ("/layers/" ++ l.stack.nodeId ++ "/" ++ l.nodeId ++ "Arn").data
          ++ '-' :: l.nodeAddr.data := by
  rw [layerParameterName, layerParameterId,
    show ("Arn-" : String) = "Arn" ++ "-" from rfl]
  simp only [String.data_append, show ("-" : String).data = ['-'] from rfl,
    List.append_assoc, List.singleton_append, List.cons_append,
    List.nil_append]

/-- Claim C4: resolving the same layer twice from the same consuming scope is
idempotent (the second resolution returns the same resolved object and leaves
the state unchanged, so no duplicate indirection is created), and two
distinct foreign layers (distinct construct node addresses, which CDK draws
from a dash-free hex alphabet) never publish under the same parameter name. -/
theorem claim4_layer_cache_idempotent_keys_distinct :
    (∀ (currentStack : Stack) (layer : LayerRef) (st : ResolverState),
      Function.handleImportedLayer currentStack layer
          (Function.handleImportedLayer currentStack layer st).2
        = Function.handleImportedLayer currentStack layer st)
    ∧ (∀ l₁ l₂ : LayerRef,
        l₁.nodeAddr ≠ l₂.nodeAddr →
        (∀ c ∈ l₁.nodeAddr.data, c ≠ '-') →
        (∀ c ∈ l₂.nodeAddr.data, c ≠ '-') →
        layerParameterName l₁ ≠ layerParameterName l₂) := by
  constructor
  · intro cs layer st
    by_cases hg : (decide (layer.stack = cs) || !layer.arn.isUnresolved) = true
    · simp only [Function.handleImportedLayer, hg, if_true]
    · simp only [Function.handleImportedLayer, hg, if_false, Bool.false_eq_true]
      set st1 := addDependency st (cs.ref, layer.stack.ref) with hst1
      set key := (layer.stack.ref, layerParameterId layer) with hkey
      set st2 := (if (st1.ssmParams.lookup key).isSome then st1
        else { st1 with ssmParams :=
          (key, { parameterName := layerParameterName layer,
                  stringValue := layer.arn }) :: st1.ssmParams }) with hst2
      have hdep2 : st2.stackDeps = st1.stackDeps := by
        rw [hst2]
        by_cases h : (st1.ssmParams.lookup key).isSome
        · rw [if_pos h]
        · rw [if_neg h]
      have hssm2 : (st2.ssmParams.lookup key).isSome = true := by
        rw [hst2]
        by_cases h : (st1.ssmParams.lookup key).isSome
        · rw [if_pos h]; exact h
        · rw [if_neg h]; simp [List.lookup]
      cases hml : st2.scopeChildren.lookup (layerImportId layer) with
      | some existing =>
        simp only [hml]
        have hd2 : addDependency st2 (cs.ref, layer.stack.ref) = st2 := by
          apply addDependency_of_contains
          rw [hdep2, hst1]
          exact addDependency_stackDeps_contains st (cs.ref, layer.stack.ref)
        rw [hd2, if_pos hssm2, hml]
      | none =>
        simp only [hml]
        set st3 := { st2 with scopeChildren :=
          (layerImportId layer,
            ResolvedLayer.importedParam (layerImportId layer)
              (layerParameterName layer)) :: st2.scopeChildren } with hst3
        have hd3 : addDependency st3 (cs.ref, layer.stack.ref) = st3 := by
          apply addDependency_of_contains
          rw [hst3]
          show st2.stackDeps.contains (cs.ref, layer.stack.ref) = true
          rw [hdep2, hst1]
          exact addDependency_stackDeps_contains st (cs.ref, layer.stack.ref)
        have hssm3 : (st3.ssmParams.lookup key).isSome = true := by
          rw [hst3]
          exact hssm2
        rw [hd3, if_pos hssm3]
        rw [show st3.scopeChildren.lookup (layerImportId layer)
            = some (ResolvedLayer.importedParam (layerImportId layer)
                (layerParameterName layer)) by
          rw [hst3]
          simp [List.lookup]]
  · intro l₁ l₂ hne h1 h2 h
    apply hne
    apply String.ext
    have hd := congrArg String.data h
    rw [layerParameterName_data, layerParameterName_data] at hd
    exact dashSuffix_inj _ _ _ _ h1 h2 hd

/-- Witness for claim C4: the two fixture layers are foreign to the fixture
scope, resolving one twice is idempotent, and their published parameter names
differ. -/
theorem claim4_witness :
    Function.handleImportedLayer scope0.stack layerA
        (Function.handleImportedLayer scope0.stack layerA st0).2
      = Function.handleImportedLayer scope0.stack layerA st0
    ∧ layerParameterName layerA ≠ layerParameterName layerB :=
  ⟨claim4_layer_cache_idempotent_keys_distinct.1 scope0.stack layerA st0,
    claim4_layer_cache_idempotent_keys_distinct.2 layerA layerB
      (by decide) (by decide) (by decide)⟩

theorem prepare_missing (props : FunctionProps) (r : String)
    (hr : Function.normalizeRuntime props.runtime = Except.ok r)
    (hh : props.handler = none ∨ props.handler = some "") :
    Function.prepare props = Except.error FnError.missingHandler := by
  rcases hh with hh | hh <;> simp [Function.prepare, hr, hh]

theorem prepare_node_invalid (props : FunctionProps) (r h0 : String)
    (hr : Function.normalizeRuntime props.runtime = Except.ok r)
    (hh : props.handler = some h0) (hne : h0 ≠ "")
    (hn : strStartsWith r "nodejs" = true)
    (hb : props.bundle = some (FunctionBundleProp.bool false))
    (hs : Function.normalizeSrcPath (jsOrStr props.srcPath ".") = ".") :
    Function.prepare props = Except.error FnError.invalidBundleConfig := by
  simp [Function.prepare, hr, hh, hne, hn, hb, hs]

theorem python_not_nodejs (r : String)
    (h : strStartsWith r "python" = true) :
    strStartsWith r "nodejs" = false := by
  unfold strStartsWith at h ⊢
  cases hd : r.data with
  | nil =>
    rw [hd] at h
    exact absurd h (by decide)
  | cons c cs =>
    rw [hd] at h
    have hc : c = 'p' := by
      rw [show ("python" : String).data = 'p' :: "ython".data from rfl] at h
      simp only [List.isPrefixOf, Bool.and_eq_true] at h
      exact (eq_of_beq h.1).symm
    subst hc
    rw [show ("nodejs" : String).data = 'n' :: "odejs".data from rfl]
    simp [List.isPrefixOf]

theorem prepare_python_invalid (props : FunctionProps) (r h0 : String)
    (hr : Function.normalizeRuntime props.runtime = Except.ok r)
    (hh : props.handler = some h0) (hne : h0 ≠ "")
    (hp : strStartsWith r "python" = true)
    (hs : Function.normalizeSrcPath (jsOrStr props.srcPath ".") = ".") :
    Function.prepare props = Except.error FnError.invalidBundleConfig := by
  simp [Function.prepare, hr, hh, hne, hp, hs, python_not_nodejs r hp]

/-- Counterexample to claim C5 as stated: merged props with no handler do not
always fail with MissingHandler, because runtime normalization runs first in
the constructor; with no handler and an unsupported runtime the construction
fails with UnsupportedRuntime instead. -/
theorem claim5_counterexample :
    props5c.handler = none
    ∧ constructFunction app1 [] scope0 "Fn" props5c st0
        = Except.error FnError.unsupportedRuntime :=
  ⟨rfl, rfl⟩

/-- Claim C5 as amended: the validation errors hold in pipeline order.  When
runtime normalization succeeds, a missing (or empty) merged handler fails
with MissingHandler; with a non-empty handler, a Node-family runtime with
bundling explicitly disabled and normalized source path at the project root
fails with InvalidBundleConfig; with a non-empty handler, a Python-family
runtime with normalized source path at the project root fails with
InvalidBundleConfig; the end-to-end python example fails that way. -/
theorem claim5_amended :
    (∀ (app : App) (defaults : List FunctionProps) (scope : Scope)
        (id : String) (props : FunctionProps) (st : ResolverState)
        (r : String),
      Function.normalizeRuntime (applyDefaultsChain defaults props).runtime
          = Except.ok r →
      ((applyDefaultsChain defaults props).handler = none
        ∨ (applyDefaultsChain defaults props).handler = some "") →
      constructFunction app defaults scope id props st
        = Except.error FnError.missingHandler)
    ∧ (∀ (app : App) (defaults : List FunctionProps) (scope : Scope)
        (id : String) (props : FunctionProps) (st : ResolverState)
        (r h0 : String),
      Function.normalizeRuntime (applyDefaultsChain defaults props).runtime
          = Except.ok r →
      (applyDefaultsChain defaults props).handler = some h0 → h0 ≠ "" →
      strStartsWith r "nodejs" = true →
      (applyDefaultsChain defaults props).bundle
          = some (FunctionBundleProp.bool false) →
      Function.normalizeSrcPath
          (jsOrStr (applyDefaultsChain defaults props).srcPath ".") = "." →
      constructFunction app defaults scope id props st
        = Except.error FnError.invalidBundleConfig)
    ∧ (∀ (app : App) (defaults : List FunctionProps) (scope : Scope)
        (id : String) (props : FunctionProps) (st : ResolverState)
        (r h0 : String),
      Function.normalizeRuntime (applyDefaultsChain defaults props).runtime
          = Except.ok r →
      (applyDefaultsChain defaults props).handler = some h0 → h0 ≠ "" →
      strStartsWith r "python" = true →
      Function.normalizeSrcPath
          (jsOrStr (applyDefaultsChain defaults props).srcPath ".") = "." →
      constructFunction app defaults scope id props st
        = Except.error FnError.invalidBundleConfig)
    ∧ constructFunction app1 [] scope0 "Fn" props5ex st0
        = Except.error FnError.invalidBundleConfig := by
  refine ⟨?_, ?_, ?_, rfl⟩
  · intro app defaults scope id props st r hr hh
    simp [constructFunction, prepare_missing _ r hr hh]
  · intro app defaults scope id props st r h0 hr hh hne hn hb hs
    simp [constructFunction, prepare_node_invalid _ r h0 hr hh hne hn hb hs]
  · intro app defaults scope id props st r h0 hr hh hne hp hs
    simp [constructFunction, prepare_python_invalid _ r h0 hr hh hne hp hs]

/-- Witness for the amended claim C5: a supported runtime with no handler
fails with MissingHandler, and a python runtime at the project root with a
handler fails with InvalidBundleConfig. -/
theorem claim5_witness :
    constructFunction app1 [] scope0 "Fn"
        ({ runtime := some "go1.x" } : FunctionProps) st0
      = Except.error FnError.missingHandler
    ∧ constructFunction app1 [] scope0 "Fn"
        ({ handler := some "main.handler",
           runtime := some "python3.8" } : FunctionProps) st0
      = Except.error FnError.invalidBundleConfig :=
  ⟨claim5_amended.1 app1 [] scope0 "Fn" { runtime := some "go1.x" } st0
      "go1.x" rfl (Or.inl rfl),
    claim5_amended.2.2.1 app1 [] scope0 "Fn"
      { handler := some "main.handler", runtime := some "python3.8" } st0
      "python3.8" "main.handler" rfl rfl (by decide) (by decide) rfl⟩

theorem envLookup_addAllEnv_ne (entries : Env) (e : Env) (k : String)
    (h : ∀ kv ∈ entries, kv.1 ≠ k) :
    envLookup (addAllEnv e entries) k = envLookup e k := by
  induction entries generalizing e with
  | nil => rfl
  | cons kv t ih =>
    show envLookup (addAllEnv (addEnv e kv.1 kv.2) t) k = envLookup e k
    rw [ih (addEnv e kv.1 kv.2) (fun x hx => h x (by simp [hx])),
      envLookup_addEnv, if_neg (fun hk => h kv (by simp) hk.symm)]

theorem envLookup_bindAllEnv_ne (cs : List SSTConstruct) (e : Env) (k : String)
    (h : ∀ c ∈ cs, ∀ kv ∈ c.env, kv.1 ≠ k) :
    envLookup (bindAllEnv cs e) k = envLookup e k := by
  induction cs generalizing e with
  | nil => rfl
  | cons c t ih =>
    show envLookup (bindAllEnv t (addAllEnv e c.env)) k = envLookup e k
    rw [ih (addAllEnv e c.env) (fun x hx => h x (by simp [hx])),
      envLookup_addAllEnv_ne c.env e k (h c (by simp))]

theorem envLookup_sstEnv_ne (app : App) (b : Bool) (e : Env) (k : String)
    (h1 : k ≠ "AWS_NODEJS_CONNECTION_REUSE_ENABLED") (h2 : k ≠ "SST_APP")
    (h3 : k ≠ "SST_STAGE") (h4 : k ≠ "SST_SSM_PREFIX") :
    envLookup (sstEnv app b e) k = envLookup e k := by
  unfold sstEnv
  cases b <;> by_cases hp : app.ssmPrefix != "" <;>
    simp [hp, envLookup_addEnv, h1, h2, h3, h4]

theorem envLookup_sstEnv_APP (app : App) (b : Bool) (e : Env) :
    envLookup (sstEnv app b e) "SST_APP" = some app.name := by
  unfold sstEnv
  cases b <;> by_cases hp : app.ssmPrefix != "" <;>
    simp [hp, envLookup_addEnv]

theorem envLookup_sstEnv_STAGE (app : App) (b : Bool) (e : Env) :
    envLookup (sstEnv app b e) "SST_STAGE" = some app.stage := by
  unfold sstEnv
  cases b <;> by_cases hp : app.ssmPrefix != "" <;>
    simp [hp, envLookup_addEnv]

theorem prepare_isLiveDev (props : FunctionProps) (p : Prepared)
    (h : Function.prepare props = Except.ok p) :
    p.isLiveDevEnabled = (props.enableLiveDev != some false) := by
  cases hnr : Function.normalizeRuntime props.runtime with
  | error e => simp [Function.prepare, hnr] at h
  | ok r =>
    simp only [Function.prepare, hnr] at h
    cases hh : props.handler with
    | none => simp [hh] at h
    | some hd =>
      simp only [hh] at h
      by_cases hempty : hd = ""
      · simp [hempty] at h
      · simp only [if_neg hempty] at h
        split at h
        · split at h
          · simp at h
          · simp only [Except.ok.injEq] at h
            subst h
            rfl
        · split at h
          · split at h
            · simp at h
            · simp only [Except.ok.injEq] at h
              subst h
              rfl
          · simp only [Except.ok.injEq] at h
            subst h
            rfl

/-- Claim C3: when live development is enabled on the merged props and the
application runs in start mode, a successfully constructed resource has the
fixed Node baseline runtime regardless of the declared runtime, a retry count
of zero, an environment carrying the three bookkeeping variables (the
normalized source path and handler as registered for the function, and the
function's stable local identifier), and when the application-level
debug-timeout flag is set its timeout is forced to the 900 second platform
maximum.  Bound constructs are assumed not to use the three reserved
bookkeeping keys in their binding environments. -/
theorem claim3_livedev_forces_baseline :
    ∀ (app : App) (defaults : List FunctionProps) (scope : Scope)
      (id : String) (props : FunctionProps) (st : ResolverState)
      (f : ConstructedFunction) (st' : ResolverState),
      constructFunction app defaults scope id props st = Except.ok (f, st') →
      app.mode = "start" →
      (applyDefaultsChain defaults props).enableLiveDev ≠ some false →
      (∀ c ∈ ((applyDefaultsChain defaults props).config.getD []
          ++ (applyDefaultsChain defaults props).bind.getD []),
        ∀ kv ∈ c.env, kv.1 ≠ "SST_DEBUG_SRC_PATH"
          ∧ kv.1 ≠ "SST_DEBUG_SRC_HANDLER" ∧ kv.1 ≠ "SST_FUNCTION_ID") →
      f.runtime = "nodejs16.x"
      ∧ f.retryAttempts = some 0
      ∧ envLookup f.environment "SST_DEBUG_SRC_PATH"
          = some f.registeredHandler.srcPath
      ∧ envLookup f.environment "SST_DEBUG_SRC_HANDLER"
          = some f.registeredHandler.handler
      ∧ envLookup f.environment "SST_FUNCTION_ID" = some f.localId
      ∧ (app.debugIncreaseTimeout = true →
          f.timeout = DurationVal.seconds 900) := by
  intro app defaults scope id props st f st' hok hmode hlive hbind
  cases hprep : Function.prepare (applyDefaultsChain defaults props) with
  | error e => simp [constructFunction, hprep] at hok
  | ok p =>
    have hld : p.isLiveDevEnabled = true := by
      rw [prepare_isLiveDev _ _ hprep]
      simpa [bne_iff_ne] using hlive
    simp only [constructFunction, hprep, hld, hmode, beq_self_eq_true,
      Bool.true_and, if_true, Except.ok.injEq, Prod.mk.injEq] at hok
    obtain ⟨hf, hst⟩ := hok
    subst hf
    refine ⟨by simp [postConstruct], by simp [postConstruct], ?_, ?_, ?_,
      fun hdb => by simp [postConstruct, hdb]⟩ <;>
      simp only [postConstruct] <;>
      rw [envLookup_bindAllEnv_ne] <;>
      try intro c hc kv hkv
    · rw [envLookup_sstEnv_ne _ _ _ _ (by decide) (by decide) (by decide)
        (by decide), envLookup_objSpread]
      simp [envLookup, List.lookup]
    · exact (hbind c hc kv hkv).1
    · rw [envLookup_sstEnv_ne _ _ _ _ (by decide) (by decide) (by decide)
        (by decide), envLookup_objSpread]
      simp [envLookup, List.lookup]
    · exact (hbind c hc kv hkv).2.1
    · rw [envLookup_sstEnv_ne _ _ _ _ (by decide) (by decide) (by decide)
        (by decide), envLookup_objSpread]
      simp [envLookup, List.lookup]
    · exact (hbind c hc kv hkv).2.2

/-- Witness for claim C3 at a concrete live-dev construction with a non-Node
declared runtime and the debug-timeout flag set. -/
theorem claim3_witness :
    (resultFun (constructFunction appDbg [] scope0 "Fn" props3 st0)).runtime
      = "nodejs16.x"
    ∧ (resultFun (constructFunction appDbg [] scope0 "Fn" props3 st0)).retryAttempts
      = some 0
    ∧ (resultFun (constructFunction appDbg [] scope0 "Fn" props3 st0)).timeout
      = DurationVal.seconds 900 := by
  have h := claim3_livedev_forces_baseline appDbg [] scope0 "Fn" props3 st0
    (resultFun (constructFunction appDbg [] scope0 "Fn" props3 st0))
    (resultState (constructFunction appDbg [] scope0 "Fn" props3 st0))
    rfl rfl (by decide) (by decide)
  exact ⟨h.1, h.2.1, h.2.2.2.2.2 rfl⟩

/-- Counterexample to claim C9 as stated: a user environment that sets the
reserved key SST_APP does not make construction fail; the construction
succeeds and the injected application name silently replaces the user's
value (which was the string hacked). -/
theorem claim9_counterexample :
    resultIsOk (constructFunction app0 [] scope0 "Fn" props9 st0) = true
    ∧ envLookup
        (resultFun (constructFunction app0 [] scope0 "Fn" props9 st0)).environment
        "SST_APP" = some "my-app"
    ∧ envLookup (props9.environment.getD []) "SST_APP" = some "hacked" :=
  ⟨rfl, rfl, rfl⟩

/-- Claim C9 as amended: a collision between the user environment and the
automatically injected reserved keys is not surfaced; construction succeeds
and the injected values silently win: the constructed environment always maps
SST_APP to the application name and SST_STAGE to the stage, whatever the user
environment said (bound constructs assumed not to rebind those keys). -/
theorem claim9_amended :
    ∀ (app : App) (defaults : List FunctionProps) (scope : Scope)
      (id : String) (props : FunctionProps) (st : ResolverState)
      (f : ConstructedFunction) (st' : ResolverState),
      constructFunction app defaults scope id props st = Except.ok (f, st') →
      (∀ c ∈ ((applyDefaultsChain defaults props).config.getD []
          ++ (applyDefaultsChain defaults props).bind.getD []),
        ∀ kv ∈ c.env, kv.1 ≠ "SST_APP" ∧ kv.1 ≠ "SST_STAGE") →
      envLookup f.environment "SST_APP" = some app.name
      ∧ envLookup f.environment "SST_STAGE" = some app.stage := by
  intro app defaults scope id props st f st' hok hbind
  cases hprep : Function.prepare (applyDefaultsChain defaults props) with
  | error e => simp [constructFunction, hprep] at hok
  | ok p =>
    simp only [constructFunction, hprep] at hok
    have hgoal : ∀ g : ConstructedFunction,
        postConstruct app (applyDefaultsChain defaults props)
          (strStartsWith p.runtime "nodejs") g = f →
        envLookup f.environment "SST_APP" = some app.name
        ∧ envLookup f.environment "SST_STAGE" = some app.stage := by
      intro g hg
      subst hg
      constructor
      · simp only [postConstruct]
        rw [envLookup_bindAllEnv_ne _ _ _
          (fun c hc kv hkv => (hbind c hc kv hkv).1)]
        exact envLookup_sstEnv_APP app _ g.environment
      · simp only [postConstruct]
        rw [envLookup_bindAllEnv_ne _ _ _
          (fun c hc kv hkv => (hbind c hc kv hkv).2)]
        exact envLookup_sstEnv_STAGE app _ g.environment
    split at hok <;>
      [skip; split at hok] <;>
      simp only [Except.ok.injEq, Prod.mk.injEq] at hok <;>
      exact hgoal _ hok.1

/-- Witness for the amended claim C9: at the concrete colliding construction
the injected values win. -/
theorem claim9_amended_witness :
    envLookup
        (resultFun (constructFunction app0 [] scope0 "Fn" props9 st0)).environment
        "SST_APP" = some "my-app"
    ∧ envLookup
        (resultFun (constructFunction app0 [] scope0 "Fn" props9 st0)).environment
        "SST_STAGE" = some "dev" := by
  have h := claim9_amended app0 [] scope0 "Fn" props9 st0
    (resultFun (constructFunction app0 [] scope0 "Fn" props9 st0))
    (resultState (constructFunction app0 [] scope0 "Fn" props9 st0))
    rfl (by decide)
  exact h

/-- The source and destination paths an entry copies to. -/
def copyPair (srcPath buildPath : String)
    (e : FunctionBundleCopyFilesProps) : String × String :=
  (pathJoin srcPath e.«from», pathJoin buildPath (jsOrStr e.«to» e.«from»))

/-- Counterexample to claim C8 as stated: an entry whose to destination is
absolute does not always fail with InvalidCopyDestination, because the
existence of the from file is checked first; with a missing from file the
loop fails with MissingCopySource even though the destination is absolute. -/
theorem claim8_counterexample :
    (Function.copyFiles
        (some (FunctionBundleProp.nodejs
          { copyFiles := some [{ «from» := "missing.txt",
                                 «to» := some "/abs/path" }] }))
        "services" "build" []).2
      = some (FnError.missingCopySource "services/missing.txt")
    ∧ isAbsolutePath (jsOrStr (some "/abs/path") "missing.txt") = true :=
  ⟨rfl, by decide⟩

/-- Claim C8 as amended: copyFiles walks the entries in order and per entry
checks the source first: a missing from file fails with MissingCopySource;
otherwise an absolute to destination fails with InvalidCopyDestination; the
entries before the first failing entry have already been copied, and when
every entry passes both checks all entries are copied into the build
directory. -/
theorem claim8_copyfiles_checks_in_order :
    (∀ (bundle : Option FunctionBundleProp) (srcPath buildPath : String)
        (fsys : List String) (entries : List FunctionBundleCopyFilesProps),
      bundleCopyFiles bundle = some entries →
      Function.copyFiles bundle srcPath buildPath fsys
        = Function.copyFilesGo entries srcPath buildPath fsys)
    ∧ (∀ (pre post : List FunctionBundleCopyFilesProps)
        (e : FunctionBundleCopyFilesProps) (srcPath buildPath : String)
        (fsys : List String),
      (∀ x ∈ pre, fsys.contains (pathJoin srcPath x.«from») = true
        ∧ isAbsolutePath (jsOrStr x.«to» x.«from») = false) →
      fsys.contains (pathJoin srcPath e.«from») = false →
      Function.copyFilesGo (pre ++ e :: post) srcPath buildPath fsys
        = (pre.map (copyPair srcPath buildPath),
           some (FnError.missingCopySource (pathJoin srcPath e.«from»))))
    ∧ (∀ (pre post : List FunctionBundleCopyFilesProps)
        (e : FunctionBundleCopyFilesProps) (srcPath buildPath : String)
        (fsys : List String),
      (∀ x ∈ pre, fsys.contains (pathJoin srcPath x.«from») = true
        ∧ isAbsolutePath (jsOrStr x.«to» x.«from») = false) →
      fsys.contains (pathJoin srcPath e.«from») = true →
      isAbsolutePath (jsOrStr e.«to» e.«from») = true →
      Function.copyFilesGo (pre ++ e :: post) srcPath buildPath fsys
        = (pre.map (copyPair srcPath buildPath),
           some (FnError.invalidCopyDestination (jsOrStr e.«to» e.«from»))))
    ∧ (∀ (entries : List FunctionBundleCopyFilesProps)
        (srcPath buildPath : String) (fsys : List String),
      (∀ x ∈ entries, fsys.contains (pathJoin srcPath x.«from») = true
        ∧ isAbsolutePath (jsOrStr x.«to» x.«from») = false) →
      Function.copyFilesGo entries srcPath buildPath fsys
        = (entries.map (copyPair srcPath buildPath), none)) := by
  refine ⟨?_, ?_, ?_, ?_⟩
  · intro bundle srcPath buildPath fsys entries h
    rcases bundle with _ | (b | pn | pp | pj)
    · simp [bundleCopyFiles] at h
    · simp [bundleCopyFiles] at h
    · simp only [bundleCopyFiles] at h
      simp [Function.copyFiles, bundleCopyFiles, h]
    · simp only [bundleCopyFiles] at h
      simp [Function.copyFiles, bundleCopyFiles, h]
    · simp only [bundleCopyFiles] at h
      simp [Function.copyFiles, bundleCopyFiles, h]
  · intro pre post e srcPath buildPath fsys hpre hmiss
    have hm : pathJoin srcPath e.«from» ∉ fsys := by simpa using hmiss
    induction pre with
    | nil => simp [Function.copyFilesGo, hm]
    | cons x t ih =>
      have hx := hpre x (by simp)
      have hx1 : pathJoin srcPath x.«from» ∈ fsys := by simpa using hx.1
      simp [Function.copyFilesGo, hx1, hx.2,
        ih (fun y hy => hpre y (by simp [hy])), copyPair]
  · intro pre post e srcPath buildPath fsys hpre hex habs
    have he : pathJoin srcPath e.«from» ∈ fsys := by simpa using hex
    induction pre with
    | nil => simp [Function.copyFilesGo, he, habs]
    | cons x t ih =>
      have hx := hpre x (by simp)
      have hx1 : pathJoin srcPath x.«from» ∈ fsys := by simpa using hx.1
      simp [Function.copyFilesGo, hx1, hx.2,
        ih (fun y hy => hpre y (by simp [hy])), copyPair]
  · intro entries srcPath buildPath fsys h
    induction entries with
    | nil => rfl
    | cons x t ih =>
      have hx := h x (by simp)
      have hx1 : pathJoin srcPath x.«from» ∈ fsys := by simpa using hx.1
      simp [Function.copyFilesGo, hx1, hx.2,
        ih (fun y hy => h y (by simp [hy])), copyPair]

/-- Witness for the amended claim C8: a python bundle with one good entry
copies it, and a two-entry list copies the first entry before failing on the
second entry's absolute destination. -/
theorem claim8_witness :
    Function.copyFiles
        (some (FunctionBundleProp.python
          { copyFiles := some [{ «from» := "requirements.txt" }] }))
        "services" "build" ["services/requirements.txt"]
      = ([("services/requirements.txt", "build/requirements.txt")], none)
    ∧ Function.copyFilesGo
        [{ «from» := "f1" }, { «from» := "f2", «to» := some "/x" }]
        "src" "out" ["src/f1", "src/f2"]
      = ([("src/f1", "out/f1")],
         some (FnError.invalidCopyDestination "/x")) := by
  constructor
  · rw [claim8_copyfiles_checks_in_order.1
      (some (FunctionBundleProp.python
        { copyFiles := some [{ «from» := "requirements.txt" }] }))
      "services" "build" ["services/requirements.txt"]
      [{ «from» := "requirements.txt" }] rfl]
    exact claim8_copyfiles_checks_in_order.2.2.2
      [{ «from» := "requirements.txt" }] "services" "build"
      ["services/requirements.txt"] (by decide)
  · exact claim8_copyfiles_checks_in_order.2.2.1
      [{ «from» := "f1" }] [] { «from» := "f2", «to» := some "/x" }
      "src" "out" ["src/f1", "src/f2"] (by decide) (by decide) (by decide)

end SST
